import Mathlib

/-!
# Verification of the git-ls status-collection engine

Shallow embedding of the concurrent status-collection core of `git-ls`
(`main.js`, latest iteration): the per-folder probe pipeline
(`makeDescriptor`), the bounded-retry divergence check, the hedged
double-scan first-arrival-wins dedup map (`callback` /
`descriptorsHashMap`), the global column-width registry
(`setLongestName` / `padEndName`), and the sort/filter/render pass of
`main`.

External effects are modelled explicitly:
* each `git` subprocess invocation is an oracle value of type
  `Except Unit String` (`.ok stdout` on success, `.error ()` on a
  non-zero exit or timeout);
* the divergence-check fetch oracle is indexed by retry round and
  receives the escalating timeout the source computes for that round;
* the shared `descriptorsHashMap` and the width registry are threaded
  as explicit state;
* JS string truthiness (`""` is falsy) and `trim` are modelled by
  `jsTruthyStr` and `jsTrim`; ANSI color styling (the `colors`
  package) is presentation-only and omitted from rendered rows;
* `String.prototype.localeCompare` is modelled as codepoint-wise
  lexicographic comparison returning -1/0/1 (locale collation
  abstracted to a fixed total order).
-/

/-- Model of JS `String.prototype.trim`: strip whitespace from both
ends of the string. -/
def jsTrim (s : String) : String :=
  String.mk (((s.data.dropWhile Char.isWhitespace).reverse.dropWhile
    Char.isWhitespace).reverse)

/-- Model of JS `String.prototype.padEnd(n, " ")`: right-pad with
spaces up to length `n` (no-op when already at least that long). -/
def jsPadEnd (s : String) (n : Nat) : String :=
  s ++ String.mk (List.replicate (n - s.length) ' ')

/-- JS truthiness of an optional string: `undefined` and `""` are
falsy, every other string is truthy. -/
def jsTruthyStr : Option String → Bool
  | none => false
  | some s => s.length != 0

/-- Codepoint-wise three-way comparison of two character lists,
returning -1/0/1 like a JS comparator. -/
def charListCompare : List Char → List Char → Int
  | [], [] => 0
  | [], _ :: _ => -1
  | _ :: _, [] => 1
  | a :: as, b :: bs =>
    if a.toNat < b.toNat then -1
    else if b.toNat < a.toNat then 1
    else charListCompare as bs

/-- Model of `String.prototype.localeCompare.call(a, b)`: negative
when `a` sorts before `b`, positive when after, zero on ties.  Locale
collation is modelled as codepoint order. -/
def localeCompare (a b : String) : Int :=
  charListCompare a.data b.data

/-- One display mode's fixed token set (source object
`stateDisplayMode.short` / `stateDisplayMode.full`). -/
structure StateTokens where
  needsGitPull : String
  needsGitPush : String
  needsGitPullAndPush : String
  hasPendingChangesFromTrackedFiles : String
  needsGitCommit : String
  hasUntracked : String
  joiner : String
deriving DecidableEq, Repr

/-- The two display modes of the source's `stateDisplayMode` table. -/
structure StateDisplayModes where
  short : StateTokens
  full : StateTokens
deriving DecidableEq, Repr

/-- Source constant `stateDisplayMode`: symbol tokens joined with `""`
in short mode, word tokens joined with `" "` in full mode. -/
def stateDisplayMode : StateDisplayModes where
  short :=
    { needsGitPull := "⇣"
      needsGitPush := "⇡"
      needsGitPullAndPush := "↕"
      hasPendingChangesFromTrackedFiles := "!"
      needsGitCommit := "+"
      hasUntracked := "?"
      joiner := "" }
  full :=
    { needsGitPull := "pull"
      needsGitPush := "push"
      needsGitPullAndPush := "pull push"
      hasPendingChangesFromTrackedFiles := "add"
      needsGitCommit := "commit"
      hasUntracked := "track"
      joiner := " " }

/-- CLI options relevant to the collection/report core (source global
`options`). -/
structure Options where
  onlyGit : Bool
  quiet : Bool
  shortStatusDisplay : Bool
  onlyWithStatus : Bool
  verbose : Bool
deriving DecidableEq, Repr

/-- One scanned folder's result (source object `d` built by
`makeDescriptor`).  `hasUntracked` is a `Nat` because the source
stores `stdout.trim().length` directly and later tests its JS
truthiness.  `stateDisplayParts` is `none` for non-git folders, where
the source leaves the field `undefined` (the early return happens
before it is assigned). -/
structure RepoDescriptor where
  name : String
  isGit : Bool
  branch : String
  isDirty : Bool
  remoteOriginUrl : Option String
  hasUntracked : Nat
  hasPendingChangesFromTrackedFiles : Bool
  needsGitCommit : Bool
  needsGitPush : Bool
  needsGitPull : Bool
  isInMergeState : Bool
  stateDisplayParts : Option (List String)
  stateDisplay : String
deriving DecidableEq, Repr

/-- The global column-width registry (source global `longestName`,
a string-keyed object of maximal observed lengths, missing keys
reading as 0). -/
abbrev Registry := String → Nat

/-- The registry at program start: no key recorded. -/
def emptyRegistry : Registry := fun _ => 0

/-- Source `setLongestName`: raise the recorded width for `key` to
`string.length` when the new string is longer. -/
def setLongestName (key string : String) (reg : Registry) : Registry :=
  fun k => if k = key then max (reg key) string.length else reg k

/-- Source `getLongestName`: recorded width for `key`, 0 if absent. -/
def getLongestName (key : String) (reg : Registry) : Nat :=
  reg key

/-- Source `padEndName`: right-pad `string` to the recorded width of
`key` (the optional color modifier parameter is presentation-only and
omitted). -/
def padEndName (key string : String) (reg : Registry) : String :=
  jsPadEnd string (getLongestName key reg)

/-- How the divergence-check `while` loop ended: a successful
fetch-and-compare round (`break`), the cooperative-cancellation
`throw` on seeing a published result, or the rethrow after the last
attempt failed. -/
inductive DivergenceExit where
  | success (needsPull : Bool)
  | cancelled
  | exhausted
deriving DecidableEq, Repr

/-- Source constant `attemptsMax` of the divergence check. -/
def attemptsMax : Nat := 10

/-- The divergence-check retry loop (source `while (attempts > 0)`
inside `makeDescriptor`).  `fetchExec roundIdx timeoutMs` is the
oracle for the round's `git fetch -q && git log ..@{u}` call;
`published roundIdx` is whether `descriptorsHashMap[folder]` is set
when the round starts.  `roundIdx` counts completed failed rounds
(source value `attemptsMax - attempts`); the escalating per-round
timeout is `2000 + roundIdx * 500` ms.  Returns the loop exit
together with the number of fetch calls issued and the number of
500 ms retry sleeps performed.  The `attempts = 0` base case is the
loop condition turning false (unreachable from `attemptsMax > 0`
since the final failure rethrows first). -/
def divergenceLoopAux (fetchExec : Nat → Nat → Except Unit String)
    (published : Nat → Bool) :
    Nat → Nat → DivergenceExit × Nat × Nat
  | _, 0 => (.exhausted, 0, 0)
  | roundIdx, attempts + 1 =>
    if published roundIdx then (.cancelled, 0, 0)
    else
      match fetchExec roundIdx (2000 + roundIdx * 500) with
      | .ok out => (.success ((jsTrim out).length != 0), 1, 0)
      | .error _ =>
        if attempts = 0 then (.exhausted, 1, 0)
        else
          let r := divergenceLoopAux fetchExec published (roundIdx + 1) attempts
          (r.1, r.2.1 + 1, r.2.2 + 1)

/-- The whole divergence check as seen by the collector: run the loop
from round 0 with `attemptsMax` attempts inside the absorbing outer
`try { ... } catch {}`; `needsGitPull` keeps its `false` default
unless a round succeeded. -/
def checkNeedsGitPull (fetchExec : Nat → Nat → Except Unit String)
    (published : Nat → Bool) : Bool :=
  match (divergenceLoopAux fetchExec published 0 attemptsMax).1 with
  | .success b => b
  | _ => false

/-- Outcomes of one folder's external probes: each `git` subprocess
call is `.ok stdout` or `.error ()` (non-zero exit or timeout); the
two `fs.promises.stat` checks are booleans (file present or not). -/
structure ProbeEnv where
  statGitDir : Bool
  branchExec : Except Unit String
  statusExec : Except Unit String
  remoteExec : Except Unit String
  untrackedExec : Except Unit String
  diffExec : Except Unit String
  stagedExec : Except Unit String
  logUpstreamExec : Except Unit String
  fetchExec : Nat → Nat → Except Unit String
  publishedBeforeRound : Nat → Bool
  statMergeHead : Bool

/-- Source `stateDisplayParts` assembly (the six sequential `push`
calls at the end of `makeDescriptor`): mutually exclusive pull/push
token first, then the pending-tracked-changes, needs-commit and
has-untracked tokens. -/
def computeStateParts (needsGitPull needsGitPush
    hasPendingChangesFromTrackedFiles needsGitCommit : Bool)
    (hasUntracked : Nat) (s : StateTokens) : List String :=
  let ds : List String := []
  let ds :=
    if needsGitPull && needsGitPush then ds ++ [s.needsGitPullAndPush]
    else if needsGitPush then ds ++ [s.needsGitPush]
    else if needsGitPull then ds ++ [s.needsGitPull]
    else ds
  let ds :=
    if hasPendingChangesFromTrackedFiles then
      ds ++ [s.hasPendingChangesFromTrackedFiles]
    else ds
  let ds := if needsGitCommit then ds ++ [s.needsGitCommit] else ds
  let ds := if hasUntracked != 0 then ds ++ [s.hasUntracked] else ds
  ds

/-- Source `d.stateDisplay = ds.join(s.joiner)` followed by the
bracket wrap when the joined string is non-empty. -/
def bracketStateDisplay (ds : List String) (joiner : String) : String :=
  let sd := String.intercalate joiner ds
  if sd.length > 0 then "[" ++ sd ++ "]" else sd

/-- Source `makeDescriptor`, with the width registry threaded
explicitly.  Returns `.error ()` when the collector's promise
rejects: the branch, `status --porcelain` and `ls-files` probes are
not wrapped in `try`/`catch`, so their failure propagates (registry
updates made before the failure persist, as the source's global
mutations do).  All other probes absorb failure into their field's
default. -/
def makeDescriptor (folder : String) (env : ProbeEnv) (short : Bool)
    (reg : Registry) : Except Unit RepoDescriptor × Registry :=
  if !env.statGitDir then
    (.ok { name := folder, isGit := false, branch := "", isDirty := false,
           remoteOriginUrl := none, hasUntracked := 0,
           hasPendingChangesFromTrackedFiles := false,
           needsGitCommit := false, needsGitPush := false,
           needsGitPull := false, isInMergeState := false,
           stateDisplayParts := none, stateDisplay := "" }, reg)
  else
    match env.branchExec with
    | .error e => (.error e, reg)
    | .ok branchOut =>
      let branch := jsTrim branchOut
      let reg := setLongestName "branch" branch reg
      match env.statusExec with
      | .error e => (.error e, reg)
      | .ok statusOut =>
        let isDirty := (jsTrim statusOut).length != 0
        let remotePair :=
          match env.remoteExec with
          | .ok remoteOut =>
            (some (jsTrim remoteOut),
             setLongestName "remoteOriginUrl" (jsTrim remoteOut) reg)
          | .error _ => ((none : Option String), reg)
        let remoteOriginUrl := remotePair.1
        let reg := remotePair.2
        match env.untrackedExec with
        | .error e => (.error e, reg)
        | .ok untrackedOut =>
          let hasUntracked := (jsTrim untrackedOut).length
          let hasPendingChangesFromTrackedFiles :=
            match env.diffExec with
            | .ok diffOut => (jsTrim diffOut).length != 0
            | .error _ => false
          let needsGitCommit :=
            match env.stagedExec with
            | .ok stagedOut => (jsTrim stagedOut).length != 0
            | .error _ => false
          let needsGitPush :=
            match env.logUpstreamExec with
            | .ok logOut => (jsTrim logOut).length != 0
            | .error _ => false
          let needsGitPull :=
            if jsTruthyStr remoteOriginUrl then
              checkNeedsGitPull env.fetchExec env.publishedBeforeRound
            else false
          let isInMergeState := env.statMergeHead
          let s := if short then stateDisplayMode.short else stateDisplayMode.full
          let ds := computeStateParts needsGitPull needsGitPush
            hasPendingChangesFromTrackedFiles needsGitCommit hasUntracked s
          let stateDisplay := bracketStateDisplay ds s.joiner
          let reg := setLongestName "stateDisplay" stateDisplay reg
          (.ok { name := folder, isGit := true, branch := branch,
                 isDirty := isDirty, remoteOriginUrl := remoteOriginUrl,
                 hasUntracked := hasUntracked,
                 hasPendingChangesFromTrackedFiles :=
                   hasPendingChangesFromTrackedFiles,
                 needsGitCommit := needsGitCommit,
                 needsGitPush := needsGitPush, needsGitPull := needsGitPull,
                 isInMergeState := isInMergeState,
                 stateDisplayParts := some ds,
                 stateDisplay := stateDisplay }, reg)

/-- The shared result map `descriptorsHashMap`, kept as an
insertion-ordered association list (JS string-keyed objects preserve
insertion order, which `Object.values` later replays). -/
abbrev DescriptorMap := List (String × RepoDescriptor)

/-- Source `callback`'s map update: `if (descriptorsHashMap[d.name])
return; descriptorsHashMap[d.name] = d` — insert only if the key is
absent (descriptor objects are always truthy). -/
def callbackInsert (m : DescriptorMap) (d : RepoDescriptor) : DescriptorMap :=
  if (m.lookup d.name).isSome then m else m ++ [(d.name, d)]

/-- The result map produced by a sequence of completed collector
tasks arriving in the given order (forward- and reverse-family
completions interleaved arbitrarily). -/
def processArrivals (arrivals : List RepoDescriptor) : DescriptorMap :=
  arrivals.foldl callbackInsert []

/-- Source filter predicate on collected descriptors (`main`, latest
iteration): `-i` drops rows whose `stateDisplayParts?.length === 0`
(optional chaining: `undefined` parts compare unequal to 0, so
non-git rows pass), then `-o` drops non-git rows. -/
def keepDescriptor (opts : Options) (e : RepoDescriptor) : Bool :=
  if opts.onlyWithStatus &&
      (match e.stateDisplayParts with
        | some ps => ps.isEmpty
        | none => false) then false
  else if opts.onlyGit && !e.isGit then false
  else true

/-- The retained rows of the report (the source `.filter` pass
without its width side effect). -/
def filterDescriptors (opts : Options) (l : List RepoDescriptor) :
    List RepoDescriptor :=
  l.filter (keepDescriptor opts)

/-- The source `.filter` pass with its side effect: each kept row
also registers its name under the `"folder"` width key. -/
def filterPhase (opts : Options) (descs : List RepoDescriptor)
    (reg : Registry) : List RepoDescriptor × Registry :=
  descs.foldl
    (fun acc e =>
      if keepDescriptor opts e then
        (acc.1 ++ [e], setLongestName "folder" e.name acc.2)
      else acc)
    ([], reg)

/-- Source sort comparator: `1` when `a` is git and `b` is not, `-1`
when `a` is not and `b` is, else `localeCompare` on names. -/
def descCompare (a b : RepoDescriptor) : Int :=
  if a.isGit && !b.isGit then 1
  else if !a.isGit && b.isGit then -1
  else localeCompare a.name b.name

/-- `a` may precede `b` under the source comparator (comparator value
at most 0). -/
def descLE (a b : RepoDescriptor) : Prop :=
  descCompare a b ≤ 0

instance : DecidableRel descLE := fun a b => by
  unfold descLE
  infer_instance

/-- The report's sort pass: a stable sort by the source comparator
(JS `Array.prototype.sort` is stable and the comparator is
consistent). -/
def sortDescriptors (l : List RepoDescriptor) : List RepoDescriptor :=
  List.insertionSort descLE l

/-- Source `toString` without ANSI styling: non-git rows render the
padded name and a fixed literal; git rows render padded name, branch,
state label and remote URL (or the `"no-remote"` placeholder when the
URL is absent or empty). -/
def renderDescriptor (reg : Registry) (d : RepoDescriptor) : String :=
  let nameDisplay := padEndName "folder" d.name reg
  if !d.isGit then nameDisplay ++ " not-a-git-repository"
  else
    let branchPart := padEndName "branch" d.branch reg
    let statePart := padEndName "stateDisplay" d.stateDisplay reg
    let originPart := padEndName "remoteOriginUrl"
      (match d.remoteOriginUrl with
        | none => "no-remote"
        | some u => if u.length = 0 then "no-remote" else u) reg
    nameDisplay ++ " " ++ branchPart ++ " " ++ statePart ++ " " ++ originPart

/-- One completed collector task landing: run `makeDescriptor` against
its probe outcomes (threading the width registry) and, when its
promise resolves, run `callback`'s dedup insert; a rejected promise
skips the callback but keeps the registry updates already made. -/
def runArrival (short : Bool) (st : DescriptorMap × Registry)
    (a : String × ProbeEnv) : DescriptorMap × Registry :=
  match makeDescriptor a.1 a.2 short st.2 with
  | (.ok d, reg) => (callbackInsert st.1 d, reg)
  | (.error _, reg) => (st.1, reg)

/-- The collection phase: fold all completed scan attempts (both
hedged families, in completion order) over the empty map and
registry. -/
def collectPhase (short : Bool) (arrivals : List (String × ProbeEnv)) :
    DescriptorMap × Registry :=
  arrivals.foldl (runArrival short) ([], emptyRegistry)

/-- The whole report pipeline of `main` after enumeration: collect,
filter (registering folder-name widths), sort, render.  Returns the
sorted retained descriptors, the final width registry, and the
rendered report lines. -/
def runPipeline (opts : Options) (arrivals : List (String × ProbeEnv)) :
    List RepoDescriptor × Registry × List String :=
  let c := collectPhase opts.shortStatusDisplay arrivals
  let f := filterPhase opts (c.1.map Prod.snd) c.2
  let sorted := sortDescriptors f.1
  (sorted, f.2, sorted.map (renderDescriptor f.2))

/-- The orchestrator's completion-poll condition (source
`while (Object.keys(descriptorsHashMap).length <
filteredFolders.length)`): the poll loop exits exactly when the map
has at least as many entries as the combined folder-reference list. -/
def scanComplete (m : DescriptorMap) (filteredFolders : List String) : Bool :=
  decide (filteredFolders.length ≤ m.length)

/-! ## Auxiliary facts about the comparator -/

theorem charListCompare_nil_nonpos (c : List Char) : charListCompare [] c ≤ 0 := by
  cases c <;> simp [charListCompare]

theorem charListCompare_cons_nonpos {x y : Char} {xs ys : List Char} :
    charListCompare (x :: xs) (y :: ys) ≤ 0 ↔
      x.toNat < y.toNat ∨ (x.toNat = y.toNat ∧ charListCompare xs ys ≤ 0) := by
  simp only [charListCompare]
  split_ifs with h1 h2
  · exact iff_of_true (by norm_num) (Or.inl h1)
  · exact iff_of_false (by norm_num) (by omega)
  · exact ⟨fun h => Or.inr ⟨by omega, h⟩, fun h => by
      rcases h with h | ⟨_, h⟩
      · omega
      · exact h⟩

theorem charListCompare_swap (a b : List Char) :
    charListCompare a b = -charListCompare b a := by
  induction a generalizing b with
  | nil => cases b <;> simp [charListCompare]
  | cons x xs ih =>
    cases b with
    | nil => simp [charListCompare]
    | cons y ys =>
      simp only [charListCompare]
      rcases Nat.lt_trichotomy x.toNat y.toNat with h | h | h
      · rw [if_pos h, if_neg (by omega), if_pos h]
      · rw [if_neg (by omega), if_neg (by omega), if_neg (by omega),
          if_neg (by omega)]
        exact ih ys
      · rw [if_neg (by omega), if_pos h, if_pos h]
        decide

theorem charListCompare_total (a b : List Char) :
    charListCompare a b ≤ 0 ∨ charListCompare b a ≤ 0 := by
  rcases le_or_lt (charListCompare a b) 0 with h | h
  · exact Or.inl h
  · right
    rw [charListCompare_swap]
    omega

theorem charListCompare_trans {a b c : List Char}
    (h1 : charListCompare a b ≤ 0) (h2 : charListCompare b c ≤ 0) :
    charListCompare a c ≤ 0 := by
  induction a generalizing b c with
  | nil => exact charListCompare_nil_nonpos c
  | cons x xs ih =>
    cases b with
    | nil => simp [charListCompare] at h1
    | cons y ys =>
      cases c with
      | nil => simp [charListCompare] at h2
      | cons z zs =>
        rw [charListCompare_cons_nonpos] at h1 h2 ⊢
        rcases h1 with h1 | ⟨h1e, h1r⟩
        · rcases h2 with h2 | ⟨h2e, _⟩
          · exact Or.inl (by omega)
          · exact Or.inl (by omega)
        · rcases h2 with h2 | ⟨h2e, h2r⟩
          · exact Or.inl (by omega)
          · exact Or.inr ⟨by omega, ih h1r h2r⟩

theorem localeCompare_total (a b : String) :
    localeCompare a b ≤ 0 ∨ localeCompare b a ≤ 0 :=
  charListCompare_total a.data b.data

theorem localeCompare_trans {a b c : String}
    (h1 : localeCompare a b ≤ 0) (h2 : localeCompare b c ≤ 0) :
    localeCompare a c ≤ 0 :=
  charListCompare_trans h1 h2

/-- Unfolding of the source comparator's "may precede" relation: `a`
may precede `b` exactly when `a` is non-git and `b` is git, or both
have the same `isGit` and `a`'s name compares at most equal. -/
theorem descLE_iff (a b : RepoDescriptor) :
    descLE a b ↔
      ((a.isGit = false ∧ b.isGit = true) ∨
       (a.isGit = b.isGit ∧ localeCompare a.name b.name ≤ 0)) := by
  unfold descLE descCompare
  cases ha : a.isGit <;> cases hb : b.isGit <;> simp [ha, hb]

instance : IsTotal RepoDescriptor descLE where
  total a b := by
    rw [descLE_iff, descLE_iff]
    cases ha : a.isGit <;> cases hb : b.isGit <;> simp [ha, hb]
    · exact localeCompare_total a.name b.name
    · exact localeCompare_total a.name b.name

instance : IsTrans RepoDescriptor descLE where
  trans a b c h1 h2 := by
    rw [descLE_iff] at h1 h2 ⊢
    rcases h1 with ⟨ha, hb⟩ | ⟨hab, hc1⟩
    · rcases h2 with ⟨hb2, _⟩ | ⟨hbc, hc2⟩
      · rw [hb] at hb2
        cases hb2
      · exact Or.inl ⟨ha, hbc ▸ hb⟩
    · rcases h2 with ⟨hb2, hc⟩ | ⟨hbc, hc2⟩
      · exact Or.inl ⟨hab ▸ hb2, hc⟩
      · exact Or.inr ⟨hab.trans hbc, localeCompare_trans hc1 hc2⟩

/-! ## Concrete fixtures used by counterexamples and witnesses -/

/-- A clean git repository descriptor named `"a"` (exactly the value
`makeDescriptor` publishes for a clean repo with no remote). -/
def dGitA : RepoDescriptor where
  name := "a"
  isGit := true
  branch := "main"
  isDirty := false
  remoteOriginUrl := none
  hasUntracked := 0
  hasPendingChangesFromTrackedFiles := false
  needsGitCommit := false
  needsGitPush := false
  needsGitPull := false
  isInMergeState := false
  stateDisplayParts := some []
  stateDisplay := ""

/-- A non-git folder descriptor named `"b"` (exactly the value of the
collector's early return for a folder without a `.git` marker). -/
def dPlainB : RepoDescriptor where
  name := "b"
  isGit := false
  branch := ""
  isDirty := false
  remoteOriginUrl := none
  hasUntracked := 0
  hasPendingChangesFromTrackedFiles := false
  needsGitCommit := false
  needsGitPush := false
  needsGitPull := false
  isInMergeState := false
  stateDisplayParts := none
  stateDisplay := ""

/-! ## C1 -/

/-- C1 counterexample: the claim says every retained non-git
descriptor appears strictly after every git one, but sorting a git
descriptor (name `"a"`) together with a non-git descriptor (name
`"b"`) puts the non-git folder first: the comparator returns `1` when
`a.isGit && !b.isGit`, which sorts git rows toward the end. -/
theorem c1_git_after_nonGit_counterexample :
    dGitA.isGit = true ∧ dPlainB.isGit = false ∧
    sortDescriptors [dGitA, dPlainB] = [dPlainB, dGitA] := by
  decide

/-- C1 (amended): in the final report order, every retained non-git
descriptor appears strictly BEFORE every retained git descriptor, and
among descriptors with the same `isGit` value the order is ascending
locale-aware lexicographic order on `name`; the sort is a permutation
of the retained rows. -/
theorem c1_sort_order_amended (l : List RepoDescriptor) :
    (sortDescriptors l).Perm l ∧
    (sortDescriptors l).Pairwise (fun a b =>
      (a.isGit = true → b.isGit = true) ∧
      (a.isGit = b.isGit → localeCompare a.name b.name ≤ 0)) := by
  refine ⟨List.perm_insertionSort descLE l, ?_⟩
  have h := List.sorted_insertionSort descLE l
  refine List.Pairwise.imp ?_ h
  intro a b hab
  rcases (descLE_iff a b).1 hab with ⟨ha, hb⟩ | ⟨hab', hc⟩
  · refine ⟨fun h' => hb, fun h' => ?_⟩
    rw [ha, hb] at h'
    cases h'
  · exact ⟨fun h' => hab' ▸ h', fun _ => hc⟩

/-! ## Auxiliary facts about the first-arrival-wins result map -/

theorem lookup_singleton (n k : String) (v : RepoDescriptor) :
    List.lookup n [(k, v)] = if k == n then some v else none := by
  by_cases h : n = k
  · subst h
    simp [List.lookup]
  · have h1 : (n == k) = false := beq_eq_false_iff_ne.mpr h
    have h2 : (k == n) = false := beq_eq_false_iff_ne.mpr (Ne.symm h)
    simp [List.lookup, h1, h2]

theorem lookup_callbackInsert (m : DescriptorMap) (d : RepoDescriptor)
    (n : String) :
    (callbackInsert m d).lookup n =
      (m.lookup n).or (if d.name == n then some d else none) := by
  unfold callbackInsert
  split
  · rename_i h
    by_cases hn : d.name = n
    · subst hn
      obtain ⟨x, hx⟩ := Option.isSome_iff_exists.1 h
      rw [hx]
      simp
    · simp [hn]
  · rw [List.lookup_append, lookup_singleton]

theorem lookup_foldl_callbackInsert (l : List RepoDescriptor)
    (m : DescriptorMap) (n : String) :
    (l.foldl callbackInsert m).lookup n =
      (m.lookup n).or (l.find? (fun d => d.name == n)) := by
  induction l generalizing m with
  | nil => simp
  | cons d l ih =>
    rw [List.foldl_cons, ih, lookup_callbackInsert, Option.or_assoc]
    congr 1
    by_cases h : d.name = n
    · rw [List.find?_cons_of_pos _ (by simp [h]), if_pos (by simp [h])]
      simp
    · rw [List.find?_cons_of_neg _ (by simp [h]), if_neg (by simp [h])]
      simp

theorem lookup_eq_none_iff (m : DescriptorMap) (n : String) :
    m.lookup n = none ↔ n ∉ m.map Prod.fst := by
  induction m with
  | nil => simp
  | cons p m ih =>
    obtain ⟨k, v⟩ := p
    by_cases h : n = k
    · subst h
      simp [List.lookup]
    · have h1 : (n == k) = false := beq_eq_false_iff_ne.mpr h
      simp [List.lookup, h1, h, ih]

theorem lookup_isSome_iff (m : DescriptorMap) (n : String) :
    (m.lookup n).isSome = true ↔ n ∈ m.map Prod.fst := by
  rw [Option.isSome_iff_ne_none]
  constructor
  · intro h
    by_contra hmem
    exact h ((lookup_eq_none_iff m n).2 hmem)
  · intro h hn
    exact (lookup_eq_none_iff m n).1 hn h

theorem nodup_keys_foldl (l : List RepoDescriptor) (m : DescriptorMap)
    (hm : (m.map Prod.fst).Nodup) :
    ((l.foldl callbackInsert m).map Prod.fst).Nodup := by
  induction l generalizing m with
  | nil => simpa
  | cons d l ih =>
    rw [List.foldl_cons]
    apply ih
    unfold callbackInsert
    split
    · exact hm
    · rename_i h
      have hnone : m.lookup d.name = none := by
        cases hl : m.lookup d.name
        · rfl
        · rw [hl] at h
          simp at h
      rw [List.map_append]
      simp only [List.map_cons, List.map_nil]
      rw [List.nodup_append]
      exact ⟨hm, List.nodup_singleton _,
        fun a ha hb => by
          simp at hb
          subst hb
          exact (lookup_eq_none_iff m d.name).1 hnone ha⟩

/-! ## C2 -/

/-- A later-arriving, different descriptor for the same folder name
`"a"` (the losing scan family's result). -/
def dGitA2 : RepoDescriptor :=
  { dGitA with isDirty := true }

/-- C2 (confirmed): the shared result map is first-arrival-wins —
inserting a descriptor whose folder key is already present is a
no-op; consequently, for any completion order of any number of
redundant scan attempts, the final map has no duplicate folder keys
and stores, for each name, exactly the first-arriving descriptor of
that name. -/
theorem c2_first_arrival_wins (arrivals : List RepoDescriptor) (n : String)
    (m : DescriptorMap) (d : RepoDescriptor)
    (h : (m.lookup d.name).isSome = true) :
    callbackInsert m d = m ∧
    ((processArrivals arrivals).map Prod.fst).Nodup ∧
    (processArrivals arrivals).lookup n =
      arrivals.find? (fun e => e.name == n) := by
  refine ⟨?_, ?_, ?_⟩
  · unfold callbackInsert
    rw [if_pos h]
  · exact nodup_keys_foldl arrivals [] (by simp)
  · rw [processArrivals, lookup_foldl_callbackInsert]
    simp

/-- C2 witness: with the map already holding folder `"a"`, inserting
the dirty duplicate is a no-op; processing the two redundant arrivals
keeps exactly the first descriptor. -/
theorem c2_first_arrival_wins_witness :
    callbackInsert [("a", dGitA)] dGitA2 = [("a", dGitA)] ∧
    ((processArrivals [dGitA, dGitA2]).map Prod.fst).Nodup ∧
    (processArrivals [dGitA, dGitA2]).lookup "a" = some dGitA := by
  have h := c2_first_arrival_wins [dGitA, dGitA2] "a" [("a", dGitA)] dGitA2
    (by decide)
  exact ⟨h.1, h.2.1, h.2.2.trans (by decide)⟩

/-! ## C10 -/

/-- C10 (confirmed): the completion poll compares the deduplicated
map's size against the length of the combined folder-reference list,
so whenever that list contains a duplicate folder path, no sequence
of completed scan results drawn from the enumerated folders can ever
satisfy the poll condition — the orchestrator's wait loop never
exits. -/
theorem c10_duplicate_folders_never_complete
    (filteredFolders : List String) (arrivals : List RepoDescriptor)
    (hdup : ¬ filteredFolders.Nodup)
    (hnames : ∀ d ∈ arrivals, d.name ∈ filteredFolders) :
    scanComplete (processArrivals arrivals) filteredFolders = false := by
  have hkeys : ((processArrivals arrivals).map Prod.fst).Nodup :=
    nodup_keys_foldl arrivals [] (by simp)
  have hsub : ∀ n ∈ (processArrivals arrivals).map Prod.fst,
      n ∈ filteredFolders := by
    intro n hn
    have hsome : ((processArrivals arrivals).lookup n).isSome = true :=
      (lookup_isSome_iff _ _).2 hn
    rw [processArrivals, lookup_foldl_callbackInsert] at hsome
    simp only [List.lookup_nil, Option.none_or] at hsome
    obtain ⟨e, he⟩ := Option.isSome_iff_exists.1 hsome
    have hmem : e ∈ arrivals := List.mem_of_find?_eq_some he
    have hpe := List.find?_some he
    rw [beq_iff_eq] at hpe
    exact hpe ▸ hnames e hmem
  have hfin : ((processArrivals arrivals).map Prod.fst).toFinset ⊆
      filteredFolders.toFinset := by
    intro x hx
    rw [List.mem_toFinset] at *
    exact hsub x hx
  have h1 : ((processArrivals arrivals).map Prod.fst).length ≤
      filteredFolders.dedup.length :=
    calc ((processArrivals arrivals).map Prod.fst).length
        = ((processArrivals arrivals).map Prod.fst).toFinset.card :=
          (List.toFinset_card_of_nodup hkeys).symm
      _ ≤ filteredFolders.toFinset.card := Finset.card_le_card hfin
      _ = filteredFolders.dedup.length := List.card_toFinset _
  have h2 : filteredFolders.dedup.length < filteredFolders.length := by
    have hle := (List.dedup_sublist filteredFolders).length_le
    rcases eq_or_lt_of_le hle with heq | hlt
    · exfalso
      have := (List.dedup_sublist filteredFolders).eq_of_length heq
      exact hdup (this ▸ filteredFolders.nodup_dedup)
    · exact hlt
  rw [scanComplete]
  simp only [decide_eq_false_iff_not, not_le]
  calc (processArrivals arrivals).length
      = ((processArrivals arrivals).map Prod.fst).length :=
        (List.length_map _ _).symm
    _ ≤ filteredFolders.dedup.length := h1
    _ < filteredFolders.length := h2

/-- C10 witness: with the same target enumerated twice (folder path
`"a"` appearing twice), one completed arrival can never satisfy the
poll condition. -/
theorem c10_duplicate_folders_never_complete_witness :
    scanComplete (processArrivals [dGitA]) ["a", "a"] = false :=
  c10_duplicate_folders_never_complete ["a", "a"] [dGitA]
    (by decide) (by decide)

/-! ## Auxiliary facts about the divergence-check loop -/

theorem divergenceLoopAux_fetch_le (f : Nat → Nat → Except Unit String)
    (p : Nat → Bool) (r n : Nat) :
    (divergenceLoopAux f p r n).2.1 ≤ n := by
  induction n generalizing r with
  | zero => simp [divergenceLoopAux]
  | succ n ih =>
    simp only [divergenceLoopAux]
    split
    · simp
    · cases hf : f r (2000 + r * 500) with
      | ok out => simp [hf]
      | error e =>
        simp only [hf]
        split
        · simp
        · simpa using Nat.succ_le_succ (ih (r + 1))

theorem divergenceLoopAux_all_fail (f : Nat → Nat → Except Unit String)
    (p : Nat → Bool) (r n : Nat)
    (hf : ∀ i, f i (2000 + i * 500) = .error ()) :
    (divergenceLoopAux f p r n).1 = .cancelled ∨
    (divergenceLoopAux f p r n).1 = .exhausted := by
  induction n generalizing r with
  | zero => exact Or.inr rfl
  | succ n ih =>
    simp only [divergenceLoopAux]
    split
    · exact Or.inl rfl
    · simp only [hf r]
      split
      · exact Or.inr rfl
      · simpa using ih (r + 1)

theorem divergenceLoopAux_cancel (f : Nat → Nat → Except Unit String)
    (p : Nat → Bool) (r k n : Nat)
    (hk : k < n)
    (hfail : ∀ i, i < k →
      p (r + i) = false ∧ f (r + i) (2000 + (r + i) * 500) = .error ())
    (hpub : p (r + k) = true) :
    divergenceLoopAux f p r n = (.cancelled, k, k) := by
  induction k generalizing r n with
  | zero =>
    cases n with
    | zero => omega
    | succ n =>
      have hp : p r = true := by simpa using hpub
      simp [divergenceLoopAux, hp]
  | succ k ih =>
    cases n with
    | zero => omega
    | succ n =>
      have h0 := hfail 0 (by omega)
      have hp0 : p r = false := by simpa using h0.1
      have hf0 : f r (2000 + r * 500) = .error () := by simpa using h0.2
      have hrec : divergenceLoopAux f p (r + 1) n = (.cancelled, k, k) := by
        refine ih (r + 1) n (by omega) ?_ ?_
        · intro i hi
          have h := hfail (i + 1) (by omega)
          constructor
          · rw [show r + 1 + i = r + (i + 1) from by omega]
            exact h.1
          · rw [show r + 1 + i = r + (i + 1) from by omega]
            exact h.2
        · rw [show r + 1 + k = r + (k + 1) from by omega]
          exact hpub
      have hn : ¬ n = 0 := by omega
      simp [divergenceLoopAux, hp0, hf0, hn, hrec]

/-! ## C3 -/

/-- C3 (confirmed): the divergence-check loop issues at most
`attemptsMax` fetch-and-compare calls, and when every round fails
(timeout or error), the absorbing outer catch leaves `needsGitPull`
at its default `false` — the checker produces a plain value and never
propagates an error to the collector. -/
theorem c3_divergence_bounded_never_throws
    (fetchExec : Nat → Nat → Except Unit String) (published : Nat → Bool) :
    (divergenceLoopAux fetchExec published 0 attemptsMax).2.1 ≤ attemptsMax ∧
    ((∀ i, fetchExec i (2000 + i * 500) = .error ()) →
      checkNeedsGitPull fetchExec published = false) := by
  refine ⟨divergenceLoopAux_fetch_le _ _ 0 attemptsMax, fun hf => ?_⟩
  unfold checkNeedsGitPull
  rcases divergenceLoopAux_all_fail fetchExec published 0 attemptsMax hf
    with h | h <;> rw [h]

/-- C3 witness: with every fetch failing and no concurrent
publication, the loop issues at most `attemptsMax` calls and the
checker reports `false`. -/
theorem c3_divergence_bounded_never_throws_witness :
    (divergenceLoopAux (fun _ _ => .error ()) (fun _ => false) 0
      attemptsMax).2.1 ≤ attemptsMax ∧
    checkNeedsGitPull (fun _ _ => .error ()) (fun _ => false) = false := by
  have h := c3_divergence_bounded_never_throws (fun _ _ => .error ())
    (fun _ => false)
  exact ⟨h.1, h.2 (fun i => rfl)⟩

/-! ## C6 -/

/-- C6 (confirmed): the checker re-reads the shared result map at the
top of every retry iteration: if the first `k` rounds fail without a
publication and the folder's result appears by the start of round
`k`, the loop exits through the cancellation throw having issued
exactly `k` fetch calls and `k` retry sleeps — none at round `k` or
later. -/
theorem c6_cancel_at_loop_top
    (fetchExec : Nat → Nat → Except Unit String) (published : Nat → Bool)
    (k : Nat) (hk : k < attemptsMax)
    (hfail : ∀ i, i < k →
      published i = false ∧ fetchExec i (2000 + i * 500) = .error ())
    (hpub : published k = true) :
    divergenceLoopAux fetchExec published 0 attemptsMax =
      (.cancelled, k, k) := by
  refine divergenceLoopAux_cancel fetchExec published 0 k attemptsMax hk ?_ ?_
  · intro i hi
    simpa using hfail i hi
  · simpa using hpub

/-- C6 witness: two failing rounds, then the other family publishes
the folder before round 2 — the loop abandons with exactly two fetch
calls and two sleeps. -/
theorem c6_cancel_at_loop_top_witness :
    divergenceLoopAux (fun _ _ => .error ()) (fun i => i == 2) 0
      attemptsMax = (.cancelled, 2, 2) := by
  refine c6_cancel_at_loop_top _ _ 2 (by decide) ?_ (by decide)
  intro i hi
  exact ⟨beq_eq_false_iff_ne.mpr (Nat.ne_of_lt hi), rfl⟩

/-! ## Auxiliary string facts -/

theorem string_length_eq_zero_iff (s : String) : s.length = 0 ↔ s = "" := by
  constructor
  · intro h
    apply String.ext
    exact List.length_eq_zero.mp h
  · intro h
    subst h
    rfl

/-! ## C7 -/

/-- Modelled from the spec's wording of the `stateParts` contract:
the concatenation, in fixed priority order, of (1) a combined
pull+push token if both are needed, else a push-only token if a push
is needed, else a pull-only token if a pull is needed; (2) the
pending-tracked-changes token; (3) the needs-commit token; (4) the
has-untracked token. -/
def statePartsSpec (needsGitPull needsGitPush
    hasPendingChangesFromTrackedFiles needsGitCommit : Bool)
    (hasUntracked : Nat) (s : StateTokens) : List String :=
  (if needsGitPull && needsGitPush then [s.needsGitPullAndPush]
   else if needsGitPush then [s.needsGitPush]
   else if needsGitPull then [s.needsGitPull]
   else []) ++
  (if hasPendingChangesFromTrackedFiles then
    [s.hasPendingChangesFromTrackedFiles]
   else []) ++
  (if needsGitCommit then [s.needsGitCommit] else []) ++
  (if hasUntracked != 0 then [s.hasUntracked] else [])

/-- C7 (confirmed): the assembled `stateParts` equals the spec's
priority-ordered concatenation for every flag combination and token
set; the display string is the tokens joined with the active mode's
joiner, wrapped in brackets exactly when the joined string is
non-empty; and the two display modes join with `""` (symbol mode) and
`" "` (word mode) respectively. -/
theorem c7_stateParts_priority_and_bracketing
    (pull push pending commit : Bool) (untracked : Nat) (s : StateTokens) :
    computeStateParts pull push pending commit untracked s =
      statePartsSpec pull push pending commit untracked s ∧
    bracketStateDisplay
        (computeStateParts pull push pending commit untracked s) s.joiner =
      (if String.intercalate s.joiner
          (computeStateParts pull push pending commit untracked s) = ""
       then ""
       else "[" ++ String.intercalate s.joiner
          (computeStateParts pull push pending commit untracked s) ++ "]") ∧
    stateDisplayMode.short.joiner = "" ∧
    stateDisplayMode.full.joiner = " " := by
  refine ⟨?_, ?_, rfl, rfl⟩
  · cases pull <;> cases push <;> cases pending <;> cases commit <;>
      simp [computeStateParts, statePartsSpec] <;>
      split <;> simp_all
  · by_cases h : String.intercalate s.joiner
        (computeStateParts pull push pending commit untracked s) = ""
    · simp [bracketStateDisplay, h]
    · have hpos : 0 < (String.intercalate s.joiner
          (computeStateParts pull push pending commit untracked s)).length :=
        Nat.pos_of_ne_zero (fun hz => h ((string_length_eq_zero_iff _).1 hz))
      simp [bracketStateDisplay, h, hpos]

/-! ## C5 -/

/-- C5 (confirmed): any descriptor the collector publishes with no
configured remote has `needsGitPull = false` — the divergence check
is gated on the remote URL's truthiness and the flag's default is
`false`. -/
theorem c5_no_remote_no_pull (folder : String) (env : ProbeEnv)
    (short : Bool) (reg : Registry) (d : RepoDescriptor)
    (h : (makeDescriptor folder env short reg).1 = .ok d)
    (hr : d.remoteOriginUrl = none) :
    d.needsGitPull = false := by
  cases hgit : env.statGitDir with
  | false =>
    simp only [makeDescriptor, hgit, Bool.not_false, if_pos] at h
    rw [Except.ok.injEq] at h
    subst h
    rfl
  | true =>
    cases hbe : env.branchExec with
    | error e => simp [makeDescriptor, hgit, hbe] at h
    | ok branchOut =>
      cases hse : env.statusExec with
      | error e => simp [makeDescriptor, hgit, hbe, hse] at h
      | ok statusOut =>
        cases hue : env.untrackedExec with
        | error e => simp [makeDescriptor, hgit, hbe, hse, hue] at h
        | ok untrackedOut =>
          cases hrem : env.remoteExec with
          | ok remoteOut =>
            simp only [makeDescriptor, hgit, hbe, hse, hue, hrem,
              Bool.not_true, Bool.false_eq_true, if_false,
              Except.ok.injEq] at h
            subst h
            simp at hr
          | error e =>
            simp only [makeDescriptor, hgit, hbe, hse, hue, hrem,
              Bool.not_true, Bool.false_eq_true, if_false,
              Except.ok.injEq] at h
            subst h
            rfl

/-- Probe-outcome fixture: a git folder where the branch, status and
untracked probes succeed but the remote-URL, unstaged-diff,
staged-diff, upstream-log and fetch probes all fail. -/
def envProbeFailures : ProbeEnv where
  statGitDir := true
  branchExec := .ok "main"
  statusExec := .ok ""
  remoteExec := .error ()
  untrackedExec := .ok ""
  diffExec := .error ()
  stagedExec := .error ()
  logUpstreamExec := .error ()
  fetchExec := fun _ _ => .error ()
  publishedBeforeRound := fun _ => false
  statMergeHead := false

/-- The descriptor the collector publishes for `envProbeFailures`:
every failed probe's field at its negative default. -/
def dNoRemote : RepoDescriptor where
  name := "repo"
  isGit := true
  branch := "main"
  isDirty := false
  remoteOriginUrl := none
  hasUntracked := 0
  hasPendingChangesFromTrackedFiles := false
  needsGitCommit := false
  needsGitPush := false
  needsGitPull := false
  isInMergeState := false
  stateDisplayParts := some []
  stateDisplay := ""

/-- C5 witness: the fixture's published descriptor has no remote and
`needsGitPull = false`. -/
theorem c5_no_remote_no_pull_witness : dNoRemote.needsGitPull = false :=
  c5_no_remote_no_pull "repo" envProbeFailures false emptyRegistry dNoRemote
    rfl rfl

/-! ## C4 -/

/-- Probe-outcome fixture: every probe succeeds except the branch
query, which fails. -/
def envBranchFail : ProbeEnv where
  statGitDir := true
  branchExec := .error ()
  statusExec := .ok ""
  remoteExec := .ok "git@host:repo.git"
  untrackedExec := .ok ""
  diffExec := .ok ""
  stagedExec := .ok ""
  logUpstreamExec := .ok ""
  fetchExec := fun _ _ => .ok ""
  publishedBeforeRound := fun _ => false
  statMergeHead := false

/-- C4 counterexample: the claim says the failure of any single
status probe is non-fatal and the descriptor is still finalized and
published, but a failing branch query (the probe is not wrapped in a
`try`/`catch`) rejects the collector's promise — the descriptor is
never finalized and nothing is published to the result map. -/
theorem c4_branch_failure_fatal_counterexample :
    (makeDescriptor "repo" envBranchFail false emptyRegistry).1 =
      .error () ∧
    (runArrival false ([], emptyRegistry) ("repo", envBranchFail)).1 = [] :=
  ⟨rfl, rfl⟩

/-- C4 (amended): for a folder with a VCS root marker, failures of
the remote-URL lookup, unstaged-diff, staged-diff and
ahead-of-upstream probes (as well as the divergence check and the
merge-marker check) are non-fatal — each defaults only its own field
to its negative value and the descriptor is still finalized and
published; but the branch query, working-tree status and untracked
listing are not failure-wrapped, so the descriptor survives only when
those three probes succeed. -/
theorem c4_wrapped_probe_failures_nonfatal (folder : String)
    (env : ProbeEnv) (short : Bool) (reg : Registry)
    (hb : env.branchExec.isOk = true) (hs : env.statusExec.isOk = true)
    (hu : env.untrackedExec.isOk = true) :
    ∃ d reg2, makeDescriptor folder env short reg = (.ok d, reg2) ∧
      (env.remoteExec.isOk = false → d.remoteOriginUrl = none) ∧
      (env.diffExec.isOk = false →
        d.hasPendingChangesFromTrackedFiles = false) ∧
      (env.stagedExec.isOk = false → d.needsGitCommit = false) ∧
      (env.logUpstreamExec.isOk = false → d.needsGitPush = false) := by
  cases hgit : env.statGitDir with
  | false =>
    refine ⟨{ name := folder, isGit := false, branch := "",
              isDirty := false, remoteOriginUrl := none,
              hasUntracked := 0,
              hasPendingChangesFromTrackedFiles := false,
              needsGitCommit := false, needsGitPush := false,
              needsGitPull := false, isInMergeState := false,
              stateDisplayParts := none, stateDisplay := "" }, reg, ?_,
            fun _ => rfl, fun _ => rfl, fun _ => rfl, fun _ => rfl⟩
    simp [makeDescriptor, hgit]
  | true =>
    cases hbe : env.branchExec with
    | error e => simp [hbe, Except.isOk, Except.toBool] at hb
    | ok branchOut =>
      cases hse : env.statusExec with
      | error e => simp [hse, Except.isOk, Except.toBool] at hs
      | ok statusOut =>
        cases hue : env.untrackedExec with
        | error e => simp [hue, Except.isOk, Except.toBool] at hu
        | ok untrackedOut =>
          simp only [makeDescriptor, hgit, hbe, hse, hue,
            Bool.not_true, Bool.false_eq_true, if_false]
          refine ⟨_, _, rfl, ?_, ?_, ?_, ?_⟩
          · intro hre
            cases hrem : env.remoteExec with
            | ok remoteOut => simp [hrem, Except.isOk, Except.toBool] at hre
            | error e => simp [hrem]
          · intro hdi
            cases hd : env.diffExec with
            | ok diffOut => simp [hd, Except.isOk, Except.toBool] at hdi
            | error e => simp [hd]
          · intro hst
            cases hg : env.stagedExec with
            | ok stagedOut => simp [hg, Except.isOk, Except.toBool] at hst
            | error e => simp [hg]
          · intro hlo
            cases hl : env.logUpstreamExec with
            | ok logOut => simp [hl, Except.isOk, Except.toBool] at hlo
            | error e => simp [hl]

/-- C4 witness: with branch/status/untracked succeeding and the four
wrapped probes failing, the descriptor is still published with each
failed probe's field at its default. -/
theorem c4_wrapped_probe_failures_nonfatal_witness :
    ∃ d reg2,
      makeDescriptor "repo" envProbeFailures false emptyRegistry =
        (.ok d, reg2) ∧
      (envProbeFailures.remoteExec.isOk = false →
        d.remoteOriginUrl = none) ∧
      (envProbeFailures.diffExec.isOk = false →
        d.hasPendingChangesFromTrackedFiles = false) ∧
      (envProbeFailures.stagedExec.isOk = false →
        d.needsGitCommit = false) ∧
      (envProbeFailures.logUpstreamExec.isOk = false →
        d.needsGitPush = false) :=
  c4_wrapped_probe_failures_nonfatal "repo" envProbeFailures false
    emptyRegistry rfl rfl rfl

/-! ## C8 -/

/-- The option set with only the `only-with-status` (`-i`) filter
active. -/
def optsOnlyWithStatus : Options where
  onlyGit := false
  quiet := false
  shortStatusDisplay := false
  onlyWithStatus := true
  verbose := false

/-- Probe-outcome fixture: a folder without a `.git` marker. -/
def envNotGit : ProbeEnv where
  statGitDir := false
  branchExec := .error ()
  statusExec := .error ()
  remoteExec := .error ()
  untrackedExec := .error ()
  diffExec := .error ()
  stagedExec := .error ()
  logUpstreamExec := .error ()
  fetchExec := fun _ _ => .error ()
  publishedBeforeRound := fun _ => false
  statMergeHead := false

/-- Probe-outcome fixture: a git folder with unstaged tracked
changes (branch `"b"`). -/
def envDirtyTracked : ProbeEnv :=
  { envProbeFailures with branchExec := .ok "b", diffExec := .ok "file.txt" }

/-- The descriptor the collector publishes for `envDirtyTracked`
under folder name `"b"` in word display mode. -/
def dDirtyB : RepoDescriptor where
  name := "b"
  isGit := true
  branch := "b"
  isDirty := false
  remoteOriginUrl := none
  hasUntracked := 0
  hasPendingChangesFromTrackedFiles := true
  needsGitCommit := false
  needsGitPush := false
  needsGitPull := false
  isInMergeState := false
  stateDisplayParts := some ["add"]
  stateDisplay := "[add]"

/-- C8 counterexample: with `only-with-status` active, a run over a
clean git folder `"a"` and a non-git folder `"b"` renders the non-git
row (`stateDisplayParts` is `undefined`, so the filter's
`?.length === 0` test is false) — the rendered output contains a row
with no state tokens, contradicting the claim. -/
theorem c8_nonGit_not_filtered_counterexample :
    (runPipeline optsOnlyWithStatus
      [("a", envProbeFailures), ("b", envNotGit)]).1 = [dPlainB] ∧
    dPlainB.stateDisplayParts = none ∧
    (runPipeline optsOnlyWithStatus
      [("a", envProbeFailures), ("b", envNotGit)]).2.2 =
      ["b not-a-git-repository"] := by
  decide

/-- C8 (amended): when `only-with-status` is active, every retained
descriptor that HAS a `stateDisplayParts` list (every git row) has a
non-empty one; descriptors without the list (non-git rows) are not
dropped by this filter — they are retained whenever `only-git` is
off. -/
theorem c8_only_with_status_amended (opts : Options)
    (l : List RepoDescriptor) (d e : RepoDescriptor) (ps : List String)
    (h : opts.onlyWithStatus = true)
    (hd : d ∈ filterDescriptors opts l)
    (hps : d.stateDisplayParts = some ps)
    (he : e ∈ l) (heps : e.stateDisplayParts = none)
    (hog : opts.onlyGit = false) :
    ps ≠ [] ∧ e ∈ filterDescriptors opts l := by
  constructor
  · intro hnil
    subst hnil
    rw [filterDescriptors, List.mem_filter] at hd
    have hk := hd.2
    simp [keepDescriptor, h, hps] at hk
  · rw [filterDescriptors, List.mem_filter]
    exact ⟨he, by simp [keepDescriptor, heps, hog]⟩

/-- C8 witness: with the filter active, the dirty git row's token
list `["add"]` is non-empty, and the non-git row is retained. -/
theorem c8_only_with_status_amended_witness :
    (["add"] : List String) ≠ [] ∧
    dPlainB ∈ filterDescriptors optsOnlyWithStatus [dDirtyB, dPlainB] :=
  c8_only_with_status_amended optsOnlyWithStatus [dDirtyB, dPlainB]
    dDirtyB dPlainB ["add"] rfl (by decide) rfl (by decide) rfl rfl

/-! ## Auxiliary facts about the width registry -/

theorem le_setLongestName (key s : String) (reg : Registry) (k : String) :
    reg k ≤ setLongestName key s reg k := by
  unfold setLongestName
  split
  · rename_i h
    subst h
    exact Nat.le_max_left _ _
  · exact Nat.le_refl _

theorem setLongestName_apply_ne (key s : String) (reg : Registry)
    (k : String) (h : k ≠ key) : setLongestName key s reg k = reg k := by
  unfold setLongestName
  rw [if_neg h]

theorem setLongestName_apply_eq (key s : String) (reg : Registry) :
    setLongestName key s reg key = max (reg key) s.length := by
  unfold setLongestName
  rw [if_pos rfl]

theorem makeDescriptor_fst_reg_indep (folder : String) (env : ProbeEnv)
    (short : Bool) (reg reg' : Registry) :
    (makeDescriptor folder env short reg).1 =
      (makeDescriptor folder env short reg').1 := by
  cases hgit : env.statGitDir <;>
    cases hbe : env.branchExec <;>
    cases hse : env.statusExec <;>
    cases hue : env.untrackedExec <;>
    cases hrem : env.remoteExec <;>
    simp [makeDescriptor, hgit, hbe, hse, hue, hrem]

theorem makeDescriptor_snd_apply_ne (folder : String) (env : ProbeEnv)
    (short : Bool) (reg : Registry) (k : String)
    (h1 : k ≠ "branch") (h2 : k ≠ "remoteOriginUrl")
    (h3 : k ≠ "stateDisplay") :
    (makeDescriptor folder env short reg).2 k = reg k := by
  cases hgit : env.statGitDir <;>
    cases hbe : env.branchExec <;>
    cases hse : env.statusExec <;>
    cases hue : env.untrackedExec <;>
    cases hrem : env.remoteExec <;>
    simp [makeDescriptor, hgit, hbe, hse, hue, hrem,
      setLongestName_apply_ne _ _ _ _ h1, setLongestName_apply_ne _ _ _ _ h2,
      setLongestName_apply_ne _ _ _ _ h3]

theorem le_makeDescriptor_snd (folder : String) (env : ProbeEnv)
    (short : Bool) (reg : Registry) (k : String) :
    reg k ≤ (makeDescriptor folder env short reg).2 k := by
  cases hgit : env.statGitDir <;>
    cases hbe : env.branchExec <;>
    cases hse : env.statusExec <;>
    cases hue : env.untrackedExec <;>
    cases hrem : env.remoteExec <;>
    simp only [makeDescriptor, hgit, hbe, hse, hue, hrem, Bool.not_true,
      Bool.not_false, Bool.false_eq_true, if_false, if_true, ite_true,
      ite_false] <;>
    repeat' refine le_trans ?_ (le_setLongestName _ _ _ _)
  all_goals exact Nat.le_refl _

theorem makeDescriptor_snd_bounds (folder : String) (env : ProbeEnv)
    (short : Bool) (reg : Registry) (d : RepoDescriptor)
    (h : (makeDescriptor folder env short reg).1 = .ok d)
    (hg : d.isGit = true) :
    d.branch.length ≤ (makeDescriptor folder env short reg).2 "branch" ∧
    d.stateDisplay.length ≤
      (makeDescriptor folder env short reg).2 "stateDisplay" ∧
    (d.remoteOriginUrl.map String.length).getD 0 ≤
      (makeDescriptor folder env short reg).2 "remoteOriginUrl" := by
  cases hgit : env.statGitDir with
  | false =>
    simp only [makeDescriptor, hgit, Bool.not_false, if_pos,
      Except.ok.injEq] at h
    subst h
    simp at hg
  | true =>
    cases hbe : env.branchExec with
    | error e => simp [makeDescriptor, hgit, hbe] at h
    | ok branchOut =>
      cases hse : env.statusExec with
      | error e => simp [makeDescriptor, hgit, hbe, hse] at h
      | ok statusOut =>
        cases hue : env.untrackedExec with
        | error e => simp [makeDescriptor, hgit, hbe, hse, hue] at h
        | ok untrackedOut =>
          cases hrem : env.remoteExec with
          | ok remoteOut =>
            simp only [makeDescriptor, hgit, hbe, hse, hue, hrem,
              Bool.not_true, Bool.false_eq_true, if_false,
              Except.ok.injEq] at h ⊢
            subst h
            refine ⟨?_, ?_, ?_⟩
            · rw [setLongestName_apply_ne _ _ _ _ (by decide),
                setLongestName_apply_ne _ _ _ _ (by decide),
                setLongestName_apply_eq]
              exact Nat.le_max_right _ _
            · rw [setLongestName_apply_eq]
              exact Nat.le_max_right _ _
            · rw [setLongestName_apply_ne _ _ _ _ (by decide),
                setLongestName_apply_eq]
              exact Nat.le_max_right _ _
          | error e =>
            simp only [makeDescriptor, hgit, hbe, hse, hue, hrem,
              Bool.not_true, Bool.false_eq_true, if_false,
              Except.ok.injEq] at h ⊢
            subst h
            refine ⟨?_, ?_, ?_⟩
            · rw [setLongestName_apply_ne _ _ _ _ (by decide),
                setLongestName_apply_eq]
              exact Nat.le_max_right _ _
            · rw [setLongestName_apply_eq]
              exact Nat.le_max_right _ _
            · exact Nat.zero_le _

theorem runArrival_snd (short : Bool) (st : DescriptorMap × Registry)
    (a : String × ProbeEnv) :
    (runArrival short st a).2 = (makeDescriptor a.1 a.2 short st.2).2 := by
  unfold runArrival
  rcases hp : makeDescriptor a.1 a.2 short st.2 with ⟨res, reg⟩
  cases res <;> rfl

theorem foldl_runArrival_snd_mono (short : Bool)
    (arrs : List (String × ProbeEnv)) (st : DescriptorMap × Registry)
    (k : String) :
    st.2 k ≤ (arrs.foldl (runArrival short) st).2 k := by
  induction arrs generalizing st with
  | nil => exact Nat.le_refl _
  | cons a arrs ih =>
    rw [List.foldl_cons]
    refine le_trans ?_ (ih (runArrival short st a))
    rw [runArrival_snd]
    exact le_makeDescriptor_snd _ _ _ _ _

theorem foldl_runArrival_snd_apply_ne (short : Bool)
    (arrs : List (String × ProbeEnv)) (st : DescriptorMap × Registry)
    (k : String) (h1 : k ≠ "branch") (h2 : k ≠ "remoteOriginUrl")
    (h3 : k ≠ "stateDisplay") :
    (arrs.foldl (runArrival short) st).2 k = st.2 k := by
  induction arrs generalizing st with
  | nil => rfl
  | cons a arrs ih =>
    rw [List.foldl_cons, ih (runArrival short st a), runArrival_snd,
      makeDescriptor_snd_apply_ne _ _ _ _ _ h1 h2 h3]

theorem foldl_runArrival_mem_bounds (short : Bool)
    (arrs : List (String × ProbeEnv)) (st : DescriptorMap × Registry)
    (folder : String) (env : ProbeEnv) (d : RepoDescriptor)
    (hmem : (folder, env) ∈ arrs)
    (hok : (makeDescriptor folder env short emptyRegistry).1 = .ok d)
    (hg : d.isGit = true) :
    d.branch.length ≤ (arrs.foldl (runArrival short) st).2 "branch" ∧
    d.stateDisplay.length ≤
      (arrs.foldl (runArrival short) st).2 "stateDisplay" ∧
    (d.remoteOriginUrl.map String.length).getD 0 ≤
      (arrs.foldl (runArrival short) st).2 "remoteOriginUrl" := by
  induction arrs generalizing st with
  | nil => cases hmem
  | cons a arrs ih =>
    rcases List.mem_cons.1 hmem with heq | hmem'
    · subst heq
      rw [List.foldl_cons]
      have hok' : (makeDescriptor folder env short st.2).1 = .ok d := by
        rw [makeDescriptor_fst_reg_indep folder env short st.2 emptyRegistry]
        exact hok
      have hb := makeDescriptor_snd_bounds folder env short st.2 d hok' hg
      have hmono : ∀ k, (makeDescriptor folder env short st.2).2 k ≤
          (arrs.foldl (runArrival short)
            (runArrival short st (folder, env))).2 k := by
        intro k
        have h := foldl_runArrival_snd_mono short arrs
          (runArrival short st (folder, env)) k
        rwa [runArrival_snd] at h
      exact ⟨le_trans hb.1 (hmono _), le_trans hb.2.1 (hmono _),
        le_trans hb.2.2 (hmono _)⟩
    · rw [List.foldl_cons]
      exact ih (runArrival short st a) hmem'

theorem filterPhase_fold_fst (opts : Options) (descs : List RepoDescriptor)
    (acc : List RepoDescriptor) (reg : Registry) :
    (descs.foldl
      (fun acc e =>
        if keepDescriptor opts e then
          (acc.1 ++ [e], setLongestName "folder" e.name acc.2)
        else acc)
      (acc, reg)).1 = acc ++ filterDescriptors opts descs := by
  induction descs generalizing acc reg with
  | nil => simp [filterDescriptors]
  | cons e descs ih =>
    rw [List.foldl_cons]
    by_cases hk : keepDescriptor opts e = true
    · simp only [hk, if_true]
      rw [ih]
      simp [filterDescriptors, List.filter_cons, hk]
    · simp only [hk, if_false, Bool.false_eq_true]
      rw [ih]
      simp [filterDescriptors, List.filter_cons,
        Bool.eq_false_iff.mpr hk]

theorem filterPhase_fold_snd_folder (opts : Options)
    (descs : List RepoDescriptor) (acc : List RepoDescriptor)
    (reg : Registry) :
    (descs.foldl
      (fun acc e =>
        if keepDescriptor opts e then
          (acc.1 ++ [e], setLongestName "folder" e.name acc.2)
        else acc)
      (acc, reg)).2 "folder" =
      (filterDescriptors opts descs).foldl
        (fun n e => max n e.name.length) (reg "folder") := by
  induction descs generalizing acc reg with
  | nil => simp [filterDescriptors]
  | cons e descs ih =>
    rw [List.foldl_cons]
    by_cases hk : keepDescriptor opts e = true
    · simp only [hk, if_true]
      rw [ih]
      simp [filterDescriptors, List.filter_cons, hk,
        setLongestName_apply_eq]
    · simp only [hk, if_false, Bool.false_eq_true]
      rw [ih]
      simp [filterDescriptors, List.filter_cons,
        Bool.eq_false_iff.mpr hk]

theorem filterPhase_fold_snd_ne (opts : Options)
    (descs : List RepoDescriptor) (acc : List RepoDescriptor)
    (reg : Registry) (k : String) (h : k ≠ "folder") :
    (descs.foldl
      (fun acc e =>
        if keepDescriptor opts e then
          (acc.1 ++ [e], setLongestName "folder" e.name acc.2)
        else acc)
      (acc, reg)).2 k = reg k := by
  induction descs generalizing acc reg with
  | nil => rfl
  | cons e descs ih =>
    rw [List.foldl_cons]
    by_cases hk : keepDescriptor opts e = true
    · simp only [hk, if_true]
      rw [ih]
      exact setLongestName_apply_ne _ _ _ _ h
    · simp only [hk, if_false, Bool.false_eq_true]
      exact ih _ _

theorem filterPhase_fst (opts : Options) (descs : List RepoDescriptor)
    (reg : Registry) :
    (filterPhase opts descs reg).1 = filterDescriptors opts descs := by
  unfold filterPhase
  rw [filterPhase_fold_fst]
  simp

theorem filterPhase_snd_folder (opts : Options)
    (descs : List RepoDescriptor) (reg : Registry) :
    (filterPhase opts descs reg).2 "folder" =
      (filterDescriptors opts descs).foldl
        (fun n e => max n e.name.length) (reg "folder") := by
  unfold filterPhase
  rw [filterPhase_fold_snd_folder]

theorem filterPhase_snd_ne (opts : Options) (descs : List RepoDescriptor)
    (reg : Registry) (k : String) (h : k ≠ "folder") :
    (filterPhase opts descs reg).2 k = reg k := by
  unfold filterPhase
  rw [filterPhase_fold_snd_ne _ _ _ _ _ h]

/-- The maximum of a list of naturals (0 when empty). -/
def maxLen (l : List Nat) : Nat := l.foldr max 0

theorem foldl_max_eq_maxLen (a : Nat) (l : List Nat) :
    l.foldl max a = max a (maxLen l) := by
  induction l generalizing a with
  | nil => simp [maxLen]
  | cons x l ih =>
    rw [List.foldl_cons, ih]
    simp only [maxLen, List.foldr_cons]
    omega

theorem maxLen_perm {l l' : List Nat} (h : l.Perm l') :
    maxLen l = maxLen l' := by
  induction h with
  | nil => rfl
  | cons x _ ih =>
    simp only [maxLen, List.foldr_cons] at *
    omega
  | swap x y l =>
    simp only [maxLen, List.foldr_cons]
    omega
  | trans _ _ ih1 ih2 => exact ih1.trans ih2

/-! ## C9 -/

/-- Probe-outcome fixture: a clean git folder on a 14-character
branch name. -/
def envCleanLongBranch : ProbeEnv :=
  { envProbeFailures with branchExec := .ok "verylongbranch" }

/-- A two-folder completion sequence: clean repo `"aa"` on branch
`"verylongbranch"` (later dropped by the `-i` filter), then dirty
repo `"b"` on branch `"b"` (rendered). -/
def arrC9 : List (String × ProbeEnv) :=
  [("aa", envCleanLongBranch), ("b", envDirtyTracked)]

/-- The descriptor the collector publishes for `envCleanLongBranch`
under folder name `"aa"` in word display mode. -/
def dCleanLong : RepoDescriptor where
  name := "aa"
  isGit := true
  branch := "verylongbranch"
  isDirty := false
  remoteOriginUrl := none
  hasUntracked := 0
  hasPendingChangesFromTrackedFiles := false
  needsGitCommit := false
  needsGitPush := false
  needsGitPull := false
  isInMergeState := false
  stateDisplayParts := some []
  stateDisplay := ""

/-- C9 counterexample: with the `-i` filter active, the only rendered
row is the dirty repo `"b"` whose branch name has length 1, yet the
branch column is padded to width 14 — the width registered by the
clean repo `"aa"` before the filter dropped it.  The padding width of
a rendered column therefore does NOT equal the maximum field length
among the rows actually rendered. -/
theorem c9_filtered_row_widens_column_counterexample :
    (runPipeline optsOnlyWithStatus arrC9).1 = [dDirtyB] ∧
    dDirtyB.branch.length = 1 ∧
    getLongestName "branch" (runPipeline optsOnlyWithStatus arrC9).2.1 =
      14 ∧
    (runPipeline optsOnlyWithStatus arrC9).2.2 =
      [jsPadEnd "b" 1 ++ " " ++ jsPadEnd "b" 14 ++ " " ++
        jsPadEnd "[add]" 5 ++ " " ++ jsPadEnd "no-remote" 0] := by
  decide

/-- C9 (amended): only the folder-name column is computed from the
post-filter rendered set — its width equals the maximum name length
of the rendered rows.  The branch, state-label and remote-URL widths
are global maxima over every completed collector run: any completed
run's descriptor (also one later discarded as a dedup duplicate or
dropped by a filter) contributes a lower bound to those columns. -/
theorem c9_column_widths_amended (opts : Options)
    (arrivals : List (String × ProbeEnv)) (folder : String)
    (env : ProbeEnv) (d : RepoDescriptor)
    (hmem : (folder, env) ∈ arrivals)
    (hok : (makeDescriptor folder env opts.shortStatusDisplay
      emptyRegistry).1 = .ok d)
    (hgit : d.isGit = true) :
    getLongestName "folder" (runPipeline opts arrivals).2.1 =
      maxLen ((runPipeline opts arrivals).1.map (fun e => e.name.length)) ∧
    d.branch.length ≤
      getLongestName "branch" (runPipeline opts arrivals).2.1 ∧
    d.stateDisplay.length ≤
      getLongestName "stateDisplay" (runPipeline opts arrivals).2.1 ∧
    (d.remoteOriginUrl.map String.length).getD 0 ≤
      getLongestName "remoteOriginUrl" (runPipeline opts arrivals).2.1 := by
  have hreg21 : (runPipeline opts arrivals).2.1 =
      (filterPhase opts
        ((collectPhase opts.shortStatusDisplay arrivals).1.map Prod.snd)
        (collectPhase opts.shortStatusDisplay arrivals).2).2 := rfl
  have hfst : (runPipeline opts arrivals).1 =
      sortDescriptors (filterPhase opts
        ((collectPhase opts.shortStatusDisplay arrivals).1.map Prod.snd)
        (collectPhase opts.shortStatusDisplay arrivals).2).1 := rfl
  unfold getLongestName
  rw [hreg21, hfst]
  have hbounds := foldl_runArrival_mem_bounds opts.shortStatusDisplay
    arrivals ([], emptyRegistry) folder env d hmem hok hgit
  refine ⟨?_, ?_, ?_, ?_⟩
  · rw [filterPhase_snd_folder]
    have h0 : (collectPhase opts.shortStatusDisplay arrivals).2
        "folder" = 0 := by
      unfold collectPhase
      rw [foldl_runArrival_snd_apply_ne _ _ _ _ (by decide) (by decide)
        (by decide)]
      rfl
    rw [h0, filterPhase_fst]
    rw [show (filterDescriptors opts
        ((collectPhase opts.shortStatusDisplay arrivals).1.map
          Prod.snd)).foldl (fun n e => max n e.name.length) 0 =
        ((filterDescriptors opts
          ((collectPhase opts.shortStatusDisplay arrivals).1.map
            Prod.snd)).map (fun e => e.name.length)).foldl max 0 from
      (List.foldl_map _ _ _ _).symm]
    rw [foldl_max_eq_maxLen, Nat.zero_max]
    exact (maxLen_perm (List.Perm.map _
      (List.perm_insertionSort descLE _))).symm
  · rw [filterPhase_snd_ne _ _ _ _ (by decide)]
    exact hbounds.1
  · rw [filterPhase_snd_ne _ _ _ _ (by decide)]
    exact hbounds.2.1
  · rw [filterPhase_snd_ne _ _ _ _ (by decide)]
    exact hbounds.2.2

/-- C9 witness: in the two-folder run, the folder column equals the
rendered maximum, while the dropped clean repo's 14-character branch
bounds the branch column from below. -/
theorem c9_column_widths_amended_witness :
    getLongestName "folder" (runPipeline optsOnlyWithStatus arrC9).2.1 =
      maxLen ((runPipeline optsOnlyWithStatus arrC9).1.map
        (fun e => e.name.length)) ∧
    dCleanLong.branch.length ≤
      getLongestName "branch" (runPipeline optsOnlyWithStatus arrC9).2.1 ∧
    dCleanLong.stateDisplay.length ≤
      getLongestName "stateDisplay"
        (runPipeline optsOnlyWithStatus arrC9).2.1 ∧
    (dCleanLong.remoteOriginUrl.map String.length).getD 0 ≤
      getLongestName "remoteOriginUrl"
        (runPipeline optsOnlyWithStatus arrC9).2.1 :=
  c9_column_widths_amended optsOnlyWithStatus arrC9 "aa"
    envCleanLongBranch dCleanLong (List.mem_cons_self _ _) rfl rfl
